import Mathlib

/-!
Shallow embedding of the movie-catalog REST API (router `src/routes/movies.py`
and schemas `src/schemas/movies.py`).

The store (the relational database seen through the SQLAlchemy session) is a
record of lists of rows.  Each handler becomes a pure function from the store
and the validated request to either an `HTTPException`-style error or a result
(paired with the updated store for the mutating handlers).  Python floats that
are only passed through are modelled as rationals; calendar dates are a record
of numerals; `datetime.strptime(v, "%Y-%m-%d")` plus the `datetime` constructor
is modelled by `parseDate`.
-/

/-- A calendar date as produced by `datetime.strptime(v, "%Y-%m-%d").date()`. -/
structure PyDate where
  year : Nat
  month : Nat
  day : Nat
deriving DecidableEq, Repr

/-- The `MovieStatusEnum` of `database.models`, whose labels are the five
strings validated by the schemas. -/
inductive MovieStatus where
  | released
  | postProduction
  | inProduction
  | planned
  | canceled
deriving DecidableEq, Repr

/-- The string label of a status, as rendered by `movie.status.value`. -/
def MovieStatus.label : MovieStatus → String
  | .released => "Released"
  | .postProduction => "Post Production"
  | .inProduction => "In Production"
  | .planned => "Planned"
  | .canceled => "Canceled"

/-- Model of `MovieStatusEnum(value)`: look a label up, `none` models the `ValueError`
raised on an unknown label. -/
def statusOfLabel (v : String) : Option MovieStatus :=
  if v = "Released" then some .released
  else if v = "Post Production" then some .postProduction
  else if v = "In Production" then some .inProduction
  else if v = "Planned" then some .planned
  else if v = "Canceled" then some .canceled
  else none

/-- Gregorian leap year, as used by Python's `datetime`. -/
def isLeapYear (y : Nat) : Bool :=
  (y % 4 == 0 && y % 100 != 0) || (y % 400 == 0)

/-- Days in a month of the Gregorian calendar. -/
def daysInMonth (y m : Nat) : Nat :=
  if m = 2 then (if isLeapYear y then 29 else 28)
  else if m = 4 ∨ m = 6 ∨ m = 9 ∨ m = 11 then 30
  else 31

/-- Numeric value of a run of decimal digit characters. -/
def digitsVal (cs : List Char) : Nat :=
  cs.foldl (fun a c => 10 * a + (c.toNat - 48)) 0

/-- Model of `datetime.strptime(s, "%Y-%m-%d").date()`: `none` when strptime
(or the `datetime` constructor) raises.  strptime requires exactly three
dash-separated fields — four digits for `%Y`, one or two digits valued 1–12
for `%m`, one or two digits valued 1–31 for `%d` — and the constructor
requires the year to be at least 1 and the day to fit the month. -/
def parseDate (s : String) : Option PyDate :=
  match s.toList.splitOn '-' with
  | [ys, ms, ds] =>
    if ys.length = 4 ∧ ys.all Char.isDigit
        ∧ 1 ≤ ms.length ∧ ms.length ≤ 2 ∧ ms.all Char.isDigit
        ∧ 1 ≤ ds.length ∧ ds.length ≤ 2 ∧ ds.all Char.isDigit then
      let y := digitsVal ys
      let m := digitsVal ms
      let d := digitsVal ds
      if 1 ≤ y ∧ 1 ≤ m ∧ m ≤ 12 ∧ 1 ≤ d ∧ d ≤ daysInMonth y m then
        some ⟨y, m, d⟩
      else none
    else none
  | _ => none

/-- The pydantic field constraint `pattern=r'^\d\x7b4\x7d-\d\x7b2\x7d-\d\x7b2\x7d$'`:
exactly four digits, a dash, two digits, a dash, two digits. -/
def matchesDatePattern (s : String) : Bool :=
  match s.toList.splitOn '-' with
  | [ys, ms, ds] =>
    ys.length == 4 && ys.all Char.isDigit
      && ms.length == 2 && ms.all Char.isDigit
      && ds.length == 2 && ds.all Char.isDigit
  | _ => false

/-- The five labels accepted by `validate_status` in both schemas. -/
def validStatuses : List String :=
  ["Released", "Post Production", "In Production", "Planned", "Canceled"]

/-- Validator `MovieCreateRequest.validate_status`: true exactly when the validator
returns the value instead of raising. -/
def createStatusOk (v : String) : Bool := v ∈ validStatuses

/-- Validator `MovieCreateRequest.validate_date`: true exactly when
`datetime.strptime(v, "%Y-%m-%d")` succeeds. -/
def createDateOk (v : String) : Bool := (parseDate v).isSome

/-- Overall acceptance of the create request's `date` field: the pydantic
pattern constraint runs first, then the field validator. -/
def createDateAccepted (v : String) : Bool := matchesDatePattern v && createDateOk v

/-- Validator `MovieUpdateRequest.validate_status`: a `None` value is returned without
any check. -/
def updateStatusOk (v : Option String) : Bool :=
  match v with
  | none => true
  | some s => createStatusOk s

/-- Validator `MovieUpdateRequest.validate_date`: a `None` value is returned without
any check. -/
def updateDateOk (v : Option String) : Bool :=
  match v with
  | none => true
  | some s => createDateOk s

/-- A row of the genre / actor / language reference tables. -/
structure RefRow where
  id : Nat
  name : String
deriving DecidableEq, Repr

/-- A row of the country table (`name` is nullable and left unset by the
get-or-create path). -/
structure CountryRow where
  id : Nat
  code : String
  name : Option String
deriving DecidableEq, Repr

/-- A row of the movie table.  Associations are stored as lists of foreign
ids, the country as a single foreign id. -/
structure MovieRow where
  id : Nat
  name : String
  date : PyDate
  score : Rat
  overview : String
  status : MovieStatus
  budget : Rat
  revenue : Rat
  countryId : Nat
  genreIds : List Nat
  actorIds : List Nat
  languageIds : List Nat
deriving DecidableEq, Repr

/-- The persistent store: every table plus the autoincrement counters. -/
structure Store where
  movies : List MovieRow
  countries : List CountryRow
  genres : List RefRow
  actors : List RefRow
  languages : List RefRow
  nextMovieId : Nat
  nextCountryId : Nat
  nextGenreId : Nat
  nextActorId : Nat
  nextLanguageId : Nat
deriving DecidableEq, Repr

/-- An exception escaping a handler: either a FastAPI `HTTPException` with its
status code and detail string, or any other Python exception (whose content the
handlers never inspect). -/
inductive Exc where
  | http (status : Nat) (detail : String)
  | generic
deriving DecidableEq, Repr

/-- SQLAlchemy's `scalar_one_or_none()` applied to the rows matched by a
query: `none` for no row, the row if unique, and `MultipleResultsFound`
(a non-HTTP exception) otherwise. -/
def scalarOneOrNone {α : Type} (rows : List α) : Except Exc (Option α) :=
  match rows with
  | [] => .ok none
  | [a] => .ok (some a)
  | _ => .error .generic

/-- The descending-id order used by `order_by(MovieModel.id.desc())`. -/
def idGe (a b : MovieRow) : Prop := b.id ≤ a.id

instance : DecidableRel idGe := fun a b => Nat.decLe b.id a.id

instance : IsTotal MovieRow idGe := ⟨fun a b => Nat.le_total b.id a.id⟩

instance : IsTrans MovieRow idGe := ⟨fun _ _ _ h1 h2 => Nat.le_trans h2 h1⟩

/-- The movie table ordered by descending id. -/
def sortByIdDesc (l : List MovieRow) : List MovieRow := l.insertionSort idGe

/-- Schema `MovieListItemSchema`: the flattened projection of a movie. -/
structure MovieListItem where
  id : Nat
  name : String
  date : PyDate
  score : Rat
  overview : String
deriving DecidableEq, Repr

/-- Projection of a movie row to a list item. -/
def toListItem (m : MovieRow) : MovieListItem :=
  ⟨m.id, m.name, m.date, m.score, m.overview⟩

/-- Schema `MovieListResponseSchema`. -/
structure MovieListResponse where
  movies : List MovieListItem
  prev_page : Option String
  next_page : Option String
  total_pages : Nat
  total_items : Nat
deriving DecidableEq, Repr

/-- The page of rows fetched by the list query: the table ordered by
descending id, offset by `(page-1)*per_page`, limited to `per_page` rows. -/
def fetchedPage (store : Store) (page per_page : Nat) : List MovieRow :=
  ((sortByIdDesc store.movies).drop ((page - 1) * per_page)).take per_page

/-- Handler `get_movies` (GET `/movies/`).  `page` and `per_page` have already
passed the query validation `page ≥ 1`, `1 ≤ per_page ≤ 20`. -/
def get_movies (store : Store) (page per_page : Nat) : Except Exc MovieListResponse :=
  let total_items := store.movies.length
  let total_pages := (total_items + per_page - 1) / per_page
  if page > total_pages ∧ total_items > 0 then
    .error (.http 404 "No movies found.")
  else
    let movies := fetchedPage store page per_page
    if movies = [] then
      .error (.http 404 "No movies found.")
    else
      .ok
        { movies := movies.map toListItem
          prev_page :=
            if page > 1 then
              some ("/theater/movies/?page=" ++ toString (page - 1)
                ++ "&per_page=" ++ toString per_page)
            else none
          next_page :=
            if page < total_pages then
              some ("/theater/movies/?page=" ++ toString (page + 1)
                ++ "&per_page=" ++ toString per_page)
            else none
          total_pages := total_pages
          total_items := total_items }

/-- The validated body of POST `/movies/` (a `MovieCreateRequest` that passed
the schema validation). -/
structure MovieCreateReq where
  name : String
  date : String
  score : Rat
  overview : String
  status : String
  budget : Rat
  revenue : Rat
  country : String
  genres : List String
  actors : List String
  languages : List String
deriving DecidableEq, Repr

/-- Schema `MovieDetailSchema`: the fully expanded detail projection. -/
structure MovieDetail where
  id : Nat
  name : String
  date : PyDate
  score : Rat
  overview : String
  status : String
  budget : Rat
  revenue : Rat
  country : Option CountryRow
  genres : List RefRow
  actors : List RefRow
  languages : List RefRow
deriving DecidableEq, Repr

/-- Zero-padded two-digit rendering, as in `str(date)`. -/
def pad2 (n : Nat) : String := if n < 10 then "0" ++ toString n else toString n

/-- Zero-padded four-digit rendering, as in `str(date)`. -/
def pad4 (n : Nat) : String :=
  if n < 10 then "000" ++ toString n
  else if n < 100 then "00" ++ toString n
  else if n < 1000 then "0" ++ toString n
  else toString n

/-- Rendering `str(movie_date)`: the ISO form of a date. -/
def PyDate.iso (d : PyDate) : String :=
  pad4 d.year ++ "-" ++ pad2 d.month ++ "-" ++ pad2 d.day

/-- One get-or-create step on a reference table (genre / actor / language):
look the name up; if absent insert a new row and flush, obtaining its id. -/
def getOrCreateRef (rows : List RefRow) (nextId : Nat) (nm : String) :
    Except Exc (RefRow × List RefRow × Nat) :=
  match scalarOneOrNone (rows.filter (fun r => r.name == nm)) with
  | .error e => .error e
  | .ok (some r) => .ok (r, rows, nextId)
  | .ok none => .ok (⟨nextId, nm⟩, rows ++ [⟨nextId, nm⟩], nextId + 1)

/-- The get-or-create loop over a list of names, threading the table state
(a flushed insert is visible to the following lookups). -/
def getOrCreateRefList (rows : List RefRow) (nextId : Nat) (names : List String) :
    Except Exc (List RefRow × List RefRow × Nat) :=
  match names with
  | [] => .ok ([], rows, nextId)
  | nm :: rest =>
    match getOrCreateRef rows nextId nm with
    | .error e => .error e
    | .ok (r, rows1, id1) =>
      match getOrCreateRefList rows1 id1 rest with
      | .error e => .error e
      | .ok (rs, rows2, id2) => .ok (r :: rs, rows2, id2)

/-- The body of the `try:` block of handler `create_movie` (POST `/movies/`):
parse the date, check for a duplicate (name, date), get-or-create the country
by code and the genres / actors / languages by name, insert the movie and
commit, and build the detail response. -/
def createMovieInner (store : Store) (req : MovieCreateReq) :
    Except Exc (Store × MovieDetail) :=
  match parseDate req.date with
  | none => .error .generic
  | some movieDate =>
    match scalarOneOrNone
        (store.movies.filter (fun m => m.name == req.name && m.date == movieDate)) with
    | .error e => .error e
    | .ok (some _) =>
      .error (.http 409 ("A movie with the name '" ++ req.name
        ++ "' and release date '" ++ movieDate.iso ++ "' already exists."))
    | .ok none =>
      match scalarOneOrNone (store.countries.filter (fun c => c.code == req.country)) with
      | .error e => .error e
      | .ok countryOpt =>
        let countryStep : CountryRow × List CountryRow × Nat :=
          match countryOpt with
          | some c => (c, store.countries, store.nextCountryId)
          | none =>
            (⟨store.nextCountryId, req.country, none⟩,
             store.countries ++ [⟨store.nextCountryId, req.country, none⟩],
             store.nextCountryId + 1)
        match getOrCreateRefList store.genres store.nextGenreId req.genres with
        | .error e => .error e
        | .ok (genreRows, genres1, nextGid) =>
          match getOrCreateRefList store.actors store.nextActorId req.actors with
          | .error e => .error e
          | .ok (actorRows, actors1, nextAid) =>
            match getOrCreateRefList store.languages store.nextLanguageId req.languages with
            | .error e => .error e
            | .ok (langRows, langs1, nextLid) =>
              match statusOfLabel req.status with
              | none => .error .generic
              | some st =>
                let movie : MovieRow :=
                  ⟨store.nextMovieId, req.name, movieDate, req.score, req.overview,
                   st, req.budget, req.revenue, countryStep.1.id,
                   genreRows.map (fun r => r.id), actorRows.map (fun r => r.id),
                   langRows.map (fun r => r.id)⟩
                .ok
                  (⟨store.movies ++ [movie], countryStep.2.1, genres1, actors1, langs1,
                    store.nextMovieId + 1, countryStep.2.2, nextGid, nextAid, nextLid⟩,
                   ⟨movie.id, movie.name, movie.date, movie.score, movie.overview,
                    st.label, movie.budget, movie.revenue, some countryStep.1,
                    genreRows, actorRows, langRows⟩)

/-- Handler `create_movie` with its `except` clauses: an `HTTPException` is
re-raised unchanged; any other exception rolls the transaction back (the store
is returned unchanged) and surfaces as 400 "Invalid input data.". -/
def create_movie (store : Store) (req : MovieCreateReq) : Store × Except Exc MovieDetail :=
  match createMovieInner store req with
  | .ok (s1, d) => (s1, .ok d)
  | .error (.http c det) => (store, .error (.http c det))
  | .error .generic => (store, .error (.http 400 "Invalid input data."))

/-- Handler `get_movie_by_id` (GET `/movies/\x7bmovie_id\x7d/`): fetch the movie with
its associations eagerly loaded, 404 when absent, else the detail projection. -/
def get_movie_by_id (store : Store) (movie_id : Nat) : Except Exc MovieDetail :=
  match scalarOneOrNone (store.movies.filter (fun m => m.id == movie_id)) with
  | .error e => .error e
  | .ok none => .error (.http 404 "Movie with the given ID was not found.")
  | .ok (some m) =>
    .ok
      ⟨m.id, m.name, m.date, m.score, m.overview, m.status.label, m.budget, m.revenue,
       store.countries.find? (fun c => c.id == m.countryId),
       store.genres.filter (fun r => m.genreIds.contains r.id),
       store.actors.filter (fun r => m.actorIds.contains r.id),
       store.languages.filter (fun r => m.languageIds.contains r.id)⟩

/-- Handler `delete_movie` (DELETE `/movies/\x7bmovie_id\x7d/`): 404 when the id is
absent, else remove the row and commit; success carries no body (status 204). -/
def delete_movie (store : Store) (movie_id : Nat) : Except Exc Store :=
  match scalarOneOrNone (store.movies.filter (fun m => m.id == movie_id)) with
  | .error e => .error e
  | .ok none => .error (.http 404 "Movie with the given ID was not found.")
  | .ok (some _) =>
    .ok { store with movies := store.movies.eraseP (fun m => m.id == movie_id) }

/-- A Python value as held in an attribute of the ORM movie object during
`update_movie`: the handler assigns raw strings, numbers, lists of strings and
`None` directly, and enum / date values for converted `status` / `date`. -/
inductive PyValue where
  | null
  | str (s : String)
  | num (q : Rat)
  | date (d : PyDate)
  | status (st : MovieStatus)
  | strList (l : List String)
deriving DecidableEq, Repr

/-- The in-memory movie object as mutated by `update_movie` via `setattr`:
one attribute per updatable field, each holding an arbitrary Python value. -/
structure MovieObj where
  name : PyValue
  date : PyValue
  score : PyValue
  overview : PyValue
  status : PyValue
  budget : PyValue
  revenue : PyValue
  country : PyValue
  genres : PyValue
  actors : PyValue
  languages : PyValue
deriving DecidableEq, Repr

/-- The validated body of PATCH `/movies/\x7bmovie_id\x7d/` (`MovieUpdateRequest`).
The outer `Option` distinguishes a field absent from the request (dropped by
`model_dump(exclude_unset=True)`) from one that was sent; the inner `Option`
is the sent value, `none` being an explicit JSON null. -/
structure MovieUpdateReq where
  name : Option (Option String)
  date : Option (Option String)
  score : Option (Option Rat)
  overview : Option (Option String)
  status : Option (Option String)
  budget : Option (Option Rat)
  revenue : Option (Option Rat)
  country : Option (Option String)
  genres : Option (Option (List String))
  actors : Option (Option (List String))
  languages : Option (Option (List String))
deriving DecidableEq, Repr

/-- The `setattr` semantics for a field hit by the generic `else` branch of the update loop:
absent fields keep the current value, sent values (nulls included) are
assigned raw. -/
def setRaw {α : Type} (cur : PyValue) (f : Option (Option α)) (inj : α → PyValue) : PyValue :=
  match f with
  | none => cur
  | some none => .null
  | some (some v) => inj v

/-- The field loop of handler `update_movie` (lines iterating over
`model_dump(exclude_unset=True)`): `status` sent non-null is converted through
`MovieStatusEnum`, `date` sent non-null is parsed through `strptime`; every
other sent value — explicit nulls included — is assigned raw.  `.error` models
an exception escaping the loop (an unknown label or an unparsable date). -/
def applyUpdateFields (movie : MovieObj) (u : MovieUpdateReq) : Except Exc MovieObj :=
  let statusStep : Except Exc PyValue :=
    match u.status with
    | none => .ok movie.status
    | some none => .ok .null
    | some (some v) =>
      match statusOfLabel v with
      | some st => .ok (.status st)
      | none => .error .generic
  let dateStep : Except Exc PyValue :=
    match u.date with
    | none => .ok movie.date
    | some none => .ok .null
    | some (some v) =>
      match parseDate v with
      | some d => .ok (.date d)
      | none => .error .generic
  match statusStep, dateStep with
  | .error e, _ => .error e
  | _, .error e => .error e
  | .ok stv, .ok dtv =>
    .ok
      { name := setRaw movie.name u.name .str
        date := dtv
        score := setRaw movie.score u.score .num
        overview := setRaw movie.overview u.overview .str
        status := stv
        budget := setRaw movie.budget u.budget .num
        revenue := setRaw movie.revenue u.revenue .num
        country := setRaw movie.country u.country .str
        genres := setRaw movie.genres u.genres .strList
        actors := setRaw movie.actors u.actors .strList
        languages := setRaw movie.languages u.languages .strList }

/-- The `try`/`except` wrapper of handler `update_movie` around the field loop
and the commit: success returns the confirmation message and the mutated,
committed movie; any exception rolls back (the movie reverts to its stored
state) and surfaces as 400 "Invalid input data.". -/
def update_movie_fields (movie : MovieObj) (u : MovieUpdateReq) :
    MovieObj × Except Exc String :=
  match applyUpdateFields movie u with
  | .ok m1 => (m1, .ok "Movie updated successfully.")
  | .error _ => (movie, .error (.http 400 "Invalid input data."))

/-- An empty catalog. -/
def emptyStore : Store := ⟨[], [], [], [], [], 1, 1, 1, 1, 1⟩

def movieA : MovieRow :=
  ⟨1, "A", ⟨2020, 1, 1⟩, 1, "a", .released, 0, 0, 1, [1], [1], [1]⟩

def movieB : MovieRow :=
  ⟨2, "B", ⟨2021, 1, 1⟩, 2, "b", .planned, 0, 0, 1, [1], [1], [1]⟩

/-- A two-movie catalog. -/
def storeAB : Store :=
  ⟨[movieA, movieB], [⟨1, "US", none⟩], [⟨1, "G"⟩], [⟨1, "Ac"⟩], [⟨1, "L"⟩], 3, 2, 2, 2, 2⟩

/-- First page of `storeAB` at one item per page. -/
def respAB1 : MovieListResponse :=
  ⟨[toListItem movieB], none, some "/theater/movies/?page=2&per_page=1", 2, 2⟩

/-- One reference table extends another by exactly one fresh row per name of
`names` that the old table lacks, and no row for names it already has. -/
def refExtension (old new : List RefRow) (names : List String) : Prop :=
  ∃ added, new = old ++ added ∧ (added.map RefRow.name).Nodup ∧
    ∀ n, n ∈ added.map RefRow.name ↔ (n ∈ names ∧ n ∉ old.map RefRow.name)

/-- A create result that is the deliberate duplicate-movie Conflict. -/
def isConflict (r : Except Exc MovieDetail) : Prop :=
  ∃ det, r = .error (.http 409 det)

/-- The generic `else setattr(movie, field, value)` semantics: an absent field
keeps the old attribute, a sent value (an explicit null included) replaces it. -/
def assignsRaw {α : Type} (sent : Option (Option α)) (old new : PyValue)
    (inj : α → PyValue) : Prop :=
  (sent = none → new = old) ∧ (∀ v, sent = some (some v) → new = inj v)

/-- An update request that passed the `MovieUpdateRequest` validators. -/
def ValidUpdateReq (u : MovieUpdateReq) : Prop :=
  (∀ v, u.status = some v → updateStatusOk v = true)
  ∧ (∀ v, u.date = some v → updateDateOk v = true)

/-- A movie object as stored before an update. -/
def movieObj0 : MovieObj :=
  ⟨.str "A", .date ⟨2020, 1, 1⟩, .num 1, .str "o", .status .released,
   .num 0, .num 0, .str "US", .strList ["G"], .strList ["Ac"], .strList ["L"]⟩

/-- An update request carrying only `score`. -/
def updScore : MovieUpdateReq :=
  ⟨none, none, some (some 5), none, none, none, none, none, none, none, none⟩

/-- An update request sending `score` as an explicit null. -/
def updNullScore : MovieUpdateReq :=
  ⟨none, none, some none, none, none, none, none, none, none, none, none⟩

/-- The digit groups of a dash-separated date string, with their numeric
values (no range constraint). -/
def dateComponents (s : String) : Option (Nat × Nat × Nat) :=
  match s.toList.splitOn '-' with
  | [ys, ms, ds] =>
    if ys ≠ [] ∧ ys.all Char.isDigit ∧ ms ≠ [] ∧ ms.all Char.isDigit
        ∧ ds ≠ [] ∧ ds.all Char.isDigit then
      some (digitsVal ys, digitsVal ms, digitsVal ds)
    else none
  | _ => none

/-- A real calendar date of the proleptic Gregorian calendar within Python's
`datetime` year range. -/
def IsRealCalendarDate (y m d : Nat) : Prop :=
  1 ≤ y ∧ y ≤ 9999 ∧ 1 ≤ m ∧ m ≤ 12 ∧ 1 ≤ d ∧ d ≤ daysInMonth y m

/-- A validated create request. -/
def reqDune : MovieCreateReq :=
  ⟨"Dune", "2021-10-22", 80, "ov", "Released", 165, 402, "US",
   ["Sci-Fi"], ["Tim"], ["English"]⟩

/-- A create request whose date string no validator would pass; the handler's
own `strptime` call raises on it. -/
def reqBadDate : MovieCreateReq :=
  ⟨"X", "not-a-date", 1, "o", "Released", 0, 0, "US", ["G"], ["A"], ["L"]⟩

/-- The store after creating `reqDune` in an empty catalog. -/
def storeDune : Store := (create_movie emptyStore reqDune).1

/-- The detail response of that create. -/
def detDune : MovieDetail :=
  ⟨1, "Dune", ⟨2021, 10, 22⟩, 80, "ov", "Released", 165, 402,
   some ⟨1, "US", none⟩, [⟨1, "Sci-Fi"⟩], [⟨1, "Tim"⟩], [⟨1, "English"⟩]⟩

theorem scalarOneOrNone_err {α : Type} {rows : List α} {e : Exc}
    (h : scalarOneOrNone rows = .error e) : e = .generic := by
  match rows with
  | [] => simp [scalarOneOrNone] at h
  | [a] => simp [scalarOneOrNone] at h
  | a :: b :: t =>
    simp only [scalarOneOrNone] at h
    exact (Except.error.injEq _ _ ▸ h).symm

theorem scalarOneOrNone_ok_none {α : Type} {rows : List α} :
    scalarOneOrNone rows = .ok none ↔ rows = [] := by
  match rows with
  | [] => simp [scalarOneOrNone]
  | [a] => simp [scalarOneOrNone]
  | a :: b :: t => simp [scalarOneOrNone]

theorem scalarOneOrNone_ok_some {α : Type} {rows : List α} {a : α} :
    scalarOneOrNone rows = .ok (some a) ↔ rows = [a] := by
  match rows with
  | [] => simp [scalarOneOrNone]
  | [b] => simp [scalarOneOrNone]
  | b :: c :: t => simp [scalarOneOrNone]

/-- A key-unique table: the lookup by a key value returns exactly the row
carrying that key. -/
theorem filter_singleton_of_nodup_key {α β : Type} [DecidableEq β] (key : α → β) (k : β)
    {p : α → Bool} (hp : ∀ x, p x = true ↔ key x = k) :
    ∀ {l : List α} {a : α}, (l.map key).Nodup → a ∈ l → key a = k → l.filter p = [a] := by
  intro l
  induction l with
  | nil => intro a _ ha; cases ha
  | cons b t ih =>
    intro a hnd hmem hka
    rw [List.map_cons, List.nodup_cons] at hnd
    rcases List.mem_cons.mp hmem with rfl | hat
    · rw [List.filter_cons_of_pos ((hp a).mpr hka)]
      have ht : t.filter p = [] := by
        rw [List.filter_eq_nil_iff]
        intro x hx hpx
        exact hnd.1 (((hp x).mp hpx).trans hka.symm ▸ List.mem_map_of_mem key hx)
      rw [ht]
    · have hpb : p b = false := by
        rcases Bool.eq_false_or_eq_true (p b) with htr | hf
        · exact absurd (((hp b).mp htr).trans hka.symm ▸ List.mem_map_of_mem key hat) hnd.1
        · exact hf
      rw [List.filter_cons_of_neg (by simp [hpb])]
      exact ih hnd.2 hat hka

/-- Erasing the unique row matched by a predicate leaves no matching row. -/
theorem filter_eraseP_nil {α : Type} {p : α → Bool} :
    ∀ {l : List α} {a : α}, l.filter p = [a] → (l.eraseP p).filter p = [] := by
  intro l
  induction l with
  | nil => intro a h; simp at h
  | cons b t ih =>
    intro a h
    rcases Bool.eq_false_or_eq_true (p b) with hpb | hpb
    · rw [List.filter_cons_of_pos hpb] at h
      rw [List.eraseP_cons_of_pos hpb]
      exact (List.cons_eq_cons.mp h).2
    · rw [List.filter_cons_of_neg (by simp [hpb])] at h
      rw [List.eraseP_cons_of_neg (by simp [hpb]), List.filter_cons_of_neg (by simp [hpb])]
      exact ih h

/-- `(n + k - 1) / k` is the ceiling of `n / k`: the unique value whose
multiple by `k` reaches `n` but overshoots by less than `k`. -/
theorem ceil_div_bounds {n k : Nat} (hk : 1 ≤ k) :
    n ≤ ((n + k - 1) / k) * k ∧ ((n + k - 1) / k) * k < n + k := by
  have hdm := Nat.div_add_mod (n + k - 1) k
  have hr : (n + k - 1) % k < k := Nat.mod_lt _ (by omega)
  rw [Nat.mul_comm] at hdm
  omega

theorem length_sortByIdDesc (l : List MovieRow) : (sortByIdDesc l).length = l.length :=
  List.length_insertionSort idGe l

/-- C1: a successful list returns the movies ordered by descending id,
skipping `(page-1)*per_page` and taking at most `per_page`, with
`total_items` the table size and `total_pages` the ceiling of
`total_items / per_page`. -/
theorem getMovies_page_correct (store : Store) (page per_page : Nat)
    (_hpage : 1 ≤ page) (hpp1 : 1 ≤ per_page) (_hpp2 : per_page ≤ 20)
    (resp : MovieListResponse)
    (h : get_movies store page per_page = .ok resp) :
    resp.movies =
        (((sortByIdDesc store.movies).drop ((page - 1) * per_page)).take per_page).map toListItem
      ∧ List.Sorted idGe (sortByIdDesc store.movies)
      ∧ (sortByIdDesc store.movies).Perm store.movies
      ∧ resp.movies.length ≤ per_page
      ∧ resp.total_items = store.movies.length
      ∧ resp.total_items ≤ resp.total_pages * per_page
      ∧ resp.total_pages * per_page < resp.total_items + per_page := by
  simp only [get_movies] at h
  split at h
  · cases h
  · split at h
    · cases h
    · injection h with h
      subst h
      refine ⟨rfl, List.sorted_insertionSort idGe store.movies,
        List.perm_insertionSort idGe store.movies, ?_, rfl, ?_, ?_⟩
      · simp only [fetchedPage, List.length_map, List.length_take]
        exact Nat.min_le_left _ _
      · exact (ceil_div_bounds hpp1).1
      · exact (ceil_div_bounds hpp1).2

/-- C6: the list endpoint fails with 404 "No movies found." exactly when the
requested page yields no movies (page beyond the last page of a non-empty
catalog, or an empty fetched page — page 1 of an empty catalog included). -/
theorem getMovies_404_iff (store : Store) (page per_page : Nat)
    (hpage : 1 ≤ page) (hpp1 : 1 ≤ per_page) :
    get_movies store page per_page = .error (.http 404 "No movies found.")
      ↔ fetchedPage store page per_page = [] := by
  simp only [get_movies]
  split
  next hcond =>
    refine ⟨fun _ => ?_, fun _ => rfl⟩
    have hlen := length_sortByIdDesc store.movies
    have hb := ceil_div_bounds (n := store.movies.length) hpp1
    have hmul : ((store.movies.length + per_page - 1) / per_page) * per_page
        ≤ (page - 1) * per_page :=
      Nat.mul_le_mul_right per_page (by omega)
    have hdrop : (sortByIdDesc store.movies).drop ((page - 1) * per_page) = [] := by
      apply List.drop_eq_nil_of_le
      omega
    simp only [fetchedPage, hdrop, List.take_nil]
  next hcond =>
    split
    next hempty => exact ⟨fun _ => hempty, fun _ => rfl⟩
    next hne =>
      constructor
      · intro h; cases h
      · intro h; exact absurd h hne

/-- C9: in a successful list response the previous-page link is present
exactly when `page > 1` and the next-page link exactly when
`page < total_pages`, each a relative `/theater/movies/` path carrying the
adjacent page number and the requested `per_page`. -/
theorem getMovies_links (store : Store) (page per_page : Nat)
    (resp : MovieListResponse)
    (h : get_movies store page per_page = .ok resp) :
    resp.prev_page =
        (if 1 < page then
          some ("/theater/movies/?page=" ++ toString (page - 1)
            ++ "&per_page=" ++ toString per_page)
         else none)
      ∧ resp.next_page =
        (if page < resp.total_pages then
          some ("/theater/movies/?page=" ++ toString (page + 1)
            ++ "&per_page=" ++ toString per_page)
         else none) := by
  simp only [get_movies] at h
  split at h
  · cases h
  · split at h
    · cases h
    · injection h with h
      subst h
      exact ⟨rfl, rfl⟩

theorem getMovies_page_correct_witness :
    respAB1.total_items ≤ respAB1.total_pages * 1
      ∧ respAB1.movies =
        (((sortByIdDesc storeAB.movies).drop ((1 - 1) * 1)).take 1).map toListItem :=
  have h := getMovies_page_correct storeAB 1 1 (by decide) (by decide) (by decide)
    respAB1 rfl
  ⟨h.2.2.2.2.2.1, h.1⟩

theorem getMovies_404_iff_witness :
    get_movies emptyStore 1 10 = .error (.http 404 "No movies found.") :=
  (getMovies_404_iff emptyStore 1 10 (by decide) (by decide)).mpr (by decide)

theorem getMovies_links_witness :
    respAB1.prev_page = (if 1 < 1 then
        some ("/theater/movies/?page=" ++ toString (1 - 1) ++ "&per_page=" ++ toString 1)
      else none) :=
  (getMovies_links storeAB 1 1 respAB1 rfl).1

theorem getOrCreateRef_error {rows : List RefRow} {nid : Nat} {nm : String} {e : Exc}
    (h : getOrCreateRef rows nid nm = .error e) : e = .generic := by
  simp only [getOrCreateRef] at h
  cases hs : scalarOneOrNone (rows.filter (fun x => x.name == nm)) with
  | error e1 =>
    rw [hs] at h
    injection h with h
    exact h ▸ scalarOneOrNone_err hs
  | ok o =>
    rw [hs] at h
    cases o with
    | none => cases h
    | some x => cases h

theorem getOrCreateRef_ok {rows : List RefRow} {nid : Nat} {nm : String}
    {r : RefRow} {rows1 : List RefRow} {id1 : Nat}
    (h : getOrCreateRef rows nid nm = .ok (r, rows1, id1)) :
    (r ∈ rows ∧ r.name = nm ∧ rows1 = rows ∧ id1 = nid)
    ∨ (nm ∉ rows.map RefRow.name ∧ r = ⟨nid, nm⟩
        ∧ rows1 = rows ++ [⟨nid, nm⟩] ∧ id1 = nid + 1) := by
  simp only [getOrCreateRef] at h
  split at h
  · cases h
  · rename_i x hs
    simp only [Except.ok.injEq, Prod.mk.injEq] at h
    obtain ⟨h1, h2, h3⟩ := h
    have hfil := scalarOneOrNone_ok_some.mp hs
    have hxin : x ∈ rows.filter (fun y => y.name == nm) := by
      rw [hfil]; exact List.mem_singleton_self x
    have hx := List.mem_filter.mp hxin
    exact Or.inl ⟨h1 ▸ hx.1, h1 ▸ (by simpa using hx.2), h2.symm, h3.symm⟩
  · rename_i hs
    simp only [Except.ok.injEq, Prod.mk.injEq] at h
    obtain ⟨h1, h2, h3⟩ := h
    have hfil := scalarOneOrNone_ok_none.mp hs
    have hnm : nm ∉ rows.map RefRow.name := by
      intro hmem
      obtain ⟨x, hx, hxnm⟩ := List.mem_map.mp hmem
      have hxin : x ∈ rows.filter (fun x => x.name == nm) :=
        List.mem_filter.mpr ⟨hx, by simp [hxnm]⟩
      rw [hfil] at hxin
      cases hxin
    exact Or.inr ⟨hnm, h1.symm, h2.symm, h3.symm⟩

theorem getOrCreateRefList_ok :
    ∀ (names : List String) (rows : List RefRow) (nid : Nat)
      (col rows2 : List RefRow) (nid2 : Nat),
      getOrCreateRefList rows nid names = .ok (col, rows2, nid2) →
      refExtension rows rows2 names ∧ ∀ r ∈ col, r ∈ rows2 := by
  intro names
  induction names with
  | nil =>
    intro rows nid col rows2 nid2 h
    simp only [getOrCreateRefList, Except.ok.injEq, Prod.mk.injEq] at h
    obtain ⟨hcol, hrows, _⟩ := h
    subst hcol; subst hrows
    exact ⟨⟨[], by simp, by simp, by simp⟩, by simp⟩
  | cons nm rest ih =>
    intro rows nid col rows2 nid2 h
    simp only [getOrCreateRefList] at h
    split at h
    · cases h
    · split at h
      · cases h
      · rename_i r rows1 id1 hg xx rs rows2a nid2a hrec
        simp only [Except.ok.injEq, Prod.mk.injEq] at h
        obtain ⟨hcol, hrows2, _⟩ := h
        subst hcol; subst hrows2
        obtain ⟨⟨added2, hext2, hnd2, hiff2⟩, hcol2⟩ := ih rows1 id1 rs rows2a nid2a hrec
        rcases getOrCreateRef_ok hg with ⟨hrmem, hrname, hr1, _⟩ | ⟨hnotin, hreq, hr1, _⟩
        · -- the name was found: this step leaves the table unchanged
          subst hr1
          refine ⟨⟨added2, hext2, hnd2, fun n => ?_⟩, fun x hx => ?_⟩
          · rw [hiff2 n, List.mem_cons]
            constructor
            · rintro ⟨hn, hnot⟩
              exact ⟨Or.inr hn, hnot⟩
            · rintro ⟨hor, hnot⟩
              rcases hor with rfl | hn2
              · exact absurd (hrname ▸ List.mem_map_of_mem RefRow.name hrmem) hnot
              · exact ⟨hn2, hnot⟩
          · rcases List.mem_cons.mp hx with rfl | hx2
            · rw [hext2]; exact List.mem_append_left _ hrmem
            · exact hcol2 x hx2
        · -- the name was absent: a fresh row was flushed before the rest
          subst hr1; subst hreq
          refine ⟨⟨⟨nid, nm⟩ :: added2, by simpa using hext2, ?_, fun n => ?_⟩, fun x hx => ?_⟩
          · rw [List.map_cons, List.nodup_cons]
            refine ⟨fun hmem => ?_, hnd2⟩
            exact ((hiff2 nm).mp hmem).2 (by simp)
          · simp only [List.map_cons, List.mem_cons]
            constructor
            · rintro (rfl | hmem)
              · exact ⟨Or.inl rfl, hnotin⟩
              · obtain ⟨hn, hnot⟩ := (hiff2 n).mp hmem
                refine ⟨Or.inr hn, fun hc => hnot ?_⟩
                simp only [List.map_append, List.mem_append]
                exact Or.inl hc
            · rintro ⟨hor, hnot⟩
              rcases hor with rfl | hn
              · exact Or.inl rfl
              · by_cases heq : n = nm
                · exact Or.inl heq
                · refine Or.inr ((hiff2 n).mpr ⟨hn, fun hc => ?_⟩)
                  simp only [List.map_append, List.mem_append, List.map_cons,
                    List.map_nil, List.mem_singleton] at hc
                  rcases hc with hc1 | hc2
                  · exact hnot hc1
                  · exact heq hc2
          · rcases List.mem_cons.mp hx with rfl | hx2
            · rw [hext2]
              exact List.mem_append_left _ (List.mem_append_right _ (List.mem_singleton_self _))
            · exact hcol2 x hx2

theorem getOrCreateRefList_error :
    ∀ (names : List String) (rows : List RefRow) (nid : Nat) (e : Exc),
      getOrCreateRefList rows nid names = .error e → e = .generic := by
  intro names
  induction names with
  | nil => intro rows nid e h; simp [getOrCreateRefList] at h
  | cons nm rest ih =>
    intro rows nid e h
    simp only [getOrCreateRefList] at h
    split at h
    · rename_i e1 hg
      injection h with h
      exact h ▸ getOrCreateRef_error hg
    · split at h
      · injection h with h
        rw [← h]
        exact ih _ _ _ (by assumption)
      · cases h

theorem createMovieInner_http {store : Store} {req : MovieCreateReq} {c : Nat} {det : String}
    (h : createMovieInner store req = .error (.http c det)) :
    c = 409 ∧ ∃ d, parseDate req.date = some d ∧
      ∃ m, m ∈ store.movies ∧ m.name = req.name ∧ m.date = d := by
  simp only [createMovieInner] at h
  split at h
  · simp at h
  · rename_i d hd
    split at h
    · rename_i e hs
      have hgen := scalarOneOrNone_err hs
      subst hgen
      simp at h
    · rename_i m hs
      simp only [Except.error.injEq, Exc.http.injEq] at h
      refine ⟨h.1.symm, d, hd, m, ?_⟩
      have hfil := scalarOneOrNone_ok_some.mp hs
      have hmem : m ∈ store.movies.filter
          (fun x => x.name == req.name && x.date == d) := by
        rw [hfil]; exact List.mem_singleton_self m
      have hm := List.mem_filter.mp hmem
      have hb := hm.2
      simp only [Bool.and_eq_true, beq_iff_eq] at hb
      exact ⟨hm.1, hb.1, hb.2⟩
    · split at h
      · rename_i e hs
        have hgen := scalarOneOrNone_err hs
        subst hgen
        simp at h
      · split at h
        · rename_i e hg
          have := getOrCreateRefList_error _ _ _ _ hg
          subst this
          simp at h
        · split at h
          · rename_i e ha
            have := getOrCreateRefList_error _ _ _ _ ha
            subst this
            simp at h
          · split at h
            · rename_i e hl
              have := getOrCreateRefList_error _ _ _ _ hl
              subst this
              simp at h
            · split at h
              · simp at h
              · cases h

theorem createMovieInner_conflict {store : Store} {req : MovieCreateReq} {d : PyDate}
    {m : MovieRow}
    (hnd : (store.movies.map (fun x => (x.name, x.date))).Nodup)
    (hd : parseDate req.date = some d)
    (hm : m ∈ store.movies) (hname : m.name = req.name) (hdate : m.date = d) :
    createMovieInner store req = .error (.http 409
      ("A movie with the name '" ++ req.name ++ "' and release date '"
        ++ d.iso ++ "' already exists.")) := by
  have hfil : store.movies.filter (fun x => x.name == req.name && x.date == d) = [m] := by
    refine filter_singleton_of_nodup_key (fun x => (x.name, x.date))
      (req.name, d) (fun x => ?_) hnd hm (by simp [hname, hdate])
    simp [Prod.ext_iff]
  simp [createMovieInner, hd, hfil, scalarOneOrNone]

/-- C2: under the store invariant that (name, date) pairs are unique, a create
fails with Conflict (409) exactly when some stored movie already carries the
requested name and (parsed) date; same name with a fresh date is never a
Conflict. -/
theorem create_conflict_iff (store : Store) (req : MovieCreateReq)
    (hnd : (store.movies.map (fun x => (x.name, x.date))).Nodup)
    (d : PyDate) (hd : parseDate req.date = some d) :
    isConflict (create_movie store req).2
      ↔ ∃ m ∈ store.movies, m.name = req.name ∧ m.date = d := by
  constructor
  · rintro ⟨det, hdet⟩
    simp only [create_movie] at hdet
    split at hdet
    · simp at hdet
    · rename_i c det1 hi
      simp only [Prod.mk.injEq, Except.error.injEq, Exc.http.injEq] at hdet
      obtain ⟨-, hc, -⟩ := hdet
      obtain ⟨-, d1, hd1, m, hmm, hmn, hmd⟩ := createMovieInner_http hi
      rw [hd] at hd1
      injection hd1 with hd1
      exact ⟨m, hmm, hmn, hd1 ▸ hmd⟩
    · rename_i hi
      simp only [Prod.mk.injEq, Except.error.injEq, Exc.http.injEq] at hdet
      omega
  · rintro ⟨m, hm, hname, hdate⟩
    have hc := createMovieInner_conflict hnd hd hm hname hdate
    refine ⟨"A movie with the name '" ++ req.name ++ "' and release date '"
      ++ d.iso ++ "' already exists.", ?_⟩
    simp [create_movie, hc]

/-- C5: a non-`HTTPException` failure inside create rolls the transaction
back — the store is returned unchanged — and surfaces as the uniform
400 "Invalid input data."; an `HTTPException` (only ever the 409 Conflict) is
re-raised unchanged, never converted to 400. -/
theorem create_error_handling (store : Store) (req : MovieCreateReq) :
    (createMovieInner store req = .error .generic →
      create_movie store req = (store, .error (.http 400 "Invalid input data.")))
    ∧ (∀ c det, createMovieInner store req = .error (.http c det) →
      c = 409 ∧ create_movie store req = (store, .error (.http c det))) := by
  constructor
  · intro h
    simp [create_movie, h]
  · intro c det h
    exact ⟨(createMovieInner_http h).1, by simp [create_movie, h]⟩

/-- C3: a successful create reuses the existing country row when the code is
present and inserts exactly one new country row when absent; each reference
table (genres, actors, languages) is extended by exactly one new row per
referenced name it lacked and none for names it had, and the rows attached to
the response all live in the final tables. -/
theorem create_success_rows (store : Store) (req : MovieCreateReq)
    (s1 : Store) (det : MovieDetail)
    (h : create_movie store req = (s1, .ok det)) :
    ((∃ c ∈ store.countries, c.code = req.country) → s1.countries = store.countries)
    ∧ ((¬ ∃ c ∈ store.countries, c.code = req.country) →
        s1.countries = store.countries ++ [⟨store.nextCountryId, req.country, none⟩])
    ∧ refExtension store.genres s1.genres req.genres
    ∧ refExtension store.actors s1.actors req.actors
    ∧ refExtension store.languages s1.languages req.languages
    ∧ (∀ r ∈ det.genres, r ∈ s1.genres)
    ∧ (∀ r ∈ det.actors, r ∈ s1.actors)
    ∧ (∀ r ∈ det.languages, r ∈ s1.languages) := by
  simp only [create_movie] at h
  split at h
  · rename_i p hi
    simp only [Prod.mk.injEq] at h
    obtain ⟨hs1, hdet⟩ := h
    injection hdet with hdet
    simp only [createMovieInner] at hi
    split at hi
    · cases hi
    · rename_i d hd
      split at hi
      · cases hi
      · cases hi
      · rename_i hdup
        split at hi
        · cases hi
        · rename_i countryOpt hcy
          split at hi
          · cases hi
          · rename_i genreRows genres1 nextGid hg
            split at hi
            · cases hi
            · rename_i actorRows actors1 nextAid ha
              split at hi
              · cases hi
              · rename_i langRows langs1 nextLid hl
                split at hi
                · cases hi
                · rename_i st hst
                  injection hi with hi
                  simp only [Prod.mk.injEq] at hi
                  obtain ⟨hstore, hdet1⟩ := hi
                  subst hs1
                  subst hdet
                  rw [← hstore]
                  rw [← hdet1]
                  obtain ⟨hgx, hgm⟩ := getOrCreateRefList_ok _ _ _ _ _ _ hg
                  obtain ⟨hax, ham⟩ := getOrCreateRefList_ok _ _ _ _ _ _ ha
                  obtain ⟨hlx, hlm⟩ := getOrCreateRefList_ok _ _ _ _ _ _ hl
                  refine ⟨?_, ?_, hgx, hax, hlx, hgm, ham, hlm⟩
                  · intro hex
                    cases countryOpt with
                    | some c => rfl
                    | none =>
                      obtain ⟨c, hc, hcode⟩ := hex
                      have hfil := scalarOneOrNone_ok_none.mp hcy
                      have : c ∈ store.countries.filter (fun x => x.code == req.country) :=
                        List.mem_filter.mpr ⟨hc, by simp [hcode]⟩
                      rw [hfil] at this
                      cases this
                  · intro hnex
                    cases countryOpt with
                    | some c =>
                      have hfil := scalarOneOrNone_ok_some.mp hcy
                      have hcin : c ∈ store.countries.filter (fun x => x.code == req.country) := by
                        rw [hfil]; exact List.mem_singleton_self c
                      have hc := List.mem_filter.mp hcin
                      exact absurd ⟨c, hc.1, by simpa using hc.2⟩ hnex
                    | none => rfl
  · simp at h
  · simp at h

/-- C7: deleting an absent id fails with 404; deleting a present id (ids being
unique) removes exactly that movie, succeeds with no body, and a subsequent
read of the id fails with 404. -/
theorem delete_then_read (store : Store) (mid : Nat)
    (hids : (store.movies.map MovieRow.id).Nodup) :
    ((¬ ∃ m ∈ store.movies, m.id = mid) →
      delete_movie store mid = .error (.http 404 "Movie with the given ID was not found."))
    ∧ (∀ m ∈ store.movies, m.id = mid →
      ∃ s1, delete_movie store mid = .ok s1
        ∧ m ∉ s1.movies
        ∧ (∀ x ∈ store.movies, x ≠ m → x ∈ s1.movies)
        ∧ s1.movies.length + 1 = store.movies.length
        ∧ get_movie_by_id s1 mid
            = .error (.http 404 "Movie with the given ID was not found.")) := by
  constructor
  · intro hne
    have hfil : store.movies.filter (fun x => x.id == mid) = [] := by
      rw [List.filter_eq_nil_iff]
      intro x hx hpx
      exact hne ⟨x, hx, by simpa using hpx⟩
    simp [delete_movie, hfil, scalarOneOrNone]
  · intro m hm hmid
    have hfil : store.movies.filter (fun x => x.id == mid) = [m] := by
      refine filter_singleton_of_nodup_key MovieRow.id mid
        (fun x => ?_) hids hm hmid
      simp
    have hpm : (m.id == mid) = true := by simp [hmid]
    have herase := filter_eraseP_nil hfil
    obtain ⟨a, l1, l2, hl1, hpa, hsplit, herased⟩ :=
      List.exists_of_eraseP (p := fun x => x.id == mid) hm hpm
    have ham : a = m := by
      have hain2 : a ∈ store.movies := by
        rw [hsplit]
        exact List.mem_append_right _ (List.mem_cons_self a l2)
      have hain : a ∈ store.movies.filter (fun x => x.id == mid) :=
        List.mem_filter.mpr ⟨hain2, hpa⟩
      rw [hfil] at hain
      exact List.mem_singleton.mp hain
    subst ham
    refine ⟨{ store with movies := store.movies.eraseP (fun x => x.id == mid) },
      by simp [delete_movie, hfil, scalarOneOrNone], ?_, ?_, ?_, ?_⟩
    · intro hmem
      have hmf : a ∈ (store.movies.eraseP (fun x => x.id == mid)).filter
          (fun x => x.id == mid) := List.mem_filter.mpr ⟨hmem, hpm⟩
      rw [herase] at hmf
      cases hmf
    · intro x hx hxm
      show x ∈ store.movies.eraseP (fun y => y.id == mid)
      rw [herased]
      rw [hsplit] at hx
      rcases List.mem_append.mp hx with h1 | h2
      · exact List.mem_append_left _ h1
      · rcases List.mem_cons.mp h2 with rfl | h3
        · exact absurd rfl hxm
        · exact List.mem_append_right _ h3
    · show (store.movies.eraseP (fun y => y.id == mid)).length + 1 = store.movies.length
      rw [herased, hsplit]
      simp [List.length_append]
      omega
    · show get_movie_by_id
          { store with movies := store.movies.eraseP (fun y => y.id == mid) } mid
          = .error (.http 404 "Movie with the given ID was not found.")
      simp only [get_movie_by_id]
      rw [herase]
      rfl

theorem delete_then_read_witness :
    ∃ s1, delete_movie storeAB 1 = .ok s1
      ∧ movieA ∉ s1.movies
      ∧ (∀ x ∈ storeAB.movies, x ≠ movieA → x ∈ s1.movies)
      ∧ s1.movies.length + 1 = storeAB.movies.length
      ∧ get_movie_by_id s1 1
          = .error (.http 404 "Movie with the given ID was not found.") :=
  (delete_then_read storeAB 1 (by decide)).2 movieA (by decide) (by decide)

theorem statusOfLabel_isSome_of_ok {v : String} (h : createStatusOk v = true) :
    (statusOfLabel v).isSome = true := by
  simp only [createStatusOk, validStatuses, List.mem_cons, List.not_mem_nil, or_false,
    decide_eq_true_eq] at h
  rcases h with rfl | rfl | rfl | rfl | rfl <;> rfl

theorem applyUpdateFields_ok_shape {movie : MovieObj} {u : MovieUpdateReq} {m1 : MovieObj}
    (h : applyUpdateFields movie u = .ok m1) :
    m1.name = setRaw movie.name u.name PyValue.str
    ∧ m1.score = setRaw movie.score u.score PyValue.num
    ∧ m1.overview = setRaw movie.overview u.overview PyValue.str
    ∧ m1.budget = setRaw movie.budget u.budget PyValue.num
    ∧ m1.revenue = setRaw movie.revenue u.revenue PyValue.num
    ∧ m1.country = setRaw movie.country u.country PyValue.str
    ∧ m1.genres = setRaw movie.genres u.genres PyValue.strList
    ∧ m1.actors = setRaw movie.actors u.actors PyValue.strList
    ∧ m1.languages = setRaw movie.languages u.languages PyValue.strList
    ∧ (u.status = none → m1.status = movie.status)
    ∧ (u.status = some none → m1.status = .null)
    ∧ (∀ v st, u.status = some (some v) → statusOfLabel v = some st →
        m1.status = .status st)
    ∧ (u.date = none → m1.date = movie.date)
    ∧ (u.date = some none → m1.date = .null)
    ∧ (∀ v d, u.date = some (some v) → parseDate v = some d → m1.date = .date d) := by
  simp only [applyUpdateFields] at h
  split at h
  · cases h
  · cases h
  · rename_i stv dtv heq1 heq2
    injection h with h
    subst h
    refine ⟨rfl, rfl, rfl, rfl, rfl, rfl, rfl, rfl, rfl, ?_, ?_, ?_, ?_, ?_, ?_⟩
    · intro hs; rw [hs] at heq1; injection heq1 with heq1; exact heq1.symm
    · intro hs; rw [hs] at heq1; injection heq1 with heq1; exact heq1.symm
    · intro v st hs hst
      rw [hs] at heq1
      simp only [hst] at heq1
      injection heq1 with heq1
      exact heq1.symm
    · intro hd; rw [hd] at heq2; injection heq2 with heq2; exact heq2.symm
    · intro hd; rw [hd] at heq2; injection heq2 with heq2; exact heq2.symm
    · intro v d hd hpd
      rw [hd] at heq2
      simp only [hpd] at heq2
      injection heq2 with heq2
      exact heq2.symm

theorem applyUpdateFields_ok_of_valid (movie : MovieObj) (u : MovieUpdateReq)
    (hval : ValidUpdateReq u) :
    ∃ m1, applyUpdateFields movie u = .ok m1 := by
  have hstep1 : ∃ stv, (match u.status with
      | none => Except.ok movie.status
      | some none => Except.ok PyValue.null
      | some (some v) =>
        match statusOfLabel v with
        | some st => Except.ok (PyValue.status st)
        | none => Except.error Exc.generic) = Except.ok stv := by
    rcases hs : u.status with _ | (_ | v)
    · exact ⟨movie.status, rfl⟩
    · exact ⟨.null, rfl⟩
    · have h1 : createStatusOk v = true := by
        simpa [updateStatusOk] using hval.1 _ hs
      obtain ⟨st, hst⟩ := Option.isSome_iff_exists.mp (statusOfLabel_isSome_of_ok h1)
      exact ⟨.status st, by simp [hst]⟩
  have hstep2 : ∃ dtv, (match u.date with
      | none => Except.ok movie.date
      | some none => Except.ok PyValue.null
      | some (some v) =>
        match parseDate v with
        | some d => Except.ok (PyValue.date d)
        | none => Except.error Exc.generic) = Except.ok dtv := by
    rcases hd : u.date with _ | (_ | v)
    · exact ⟨movie.date, rfl⟩
    · exact ⟨.null, rfl⟩
    · have h1 : createDateOk v = true := by
        simpa [updateDateOk] using hval.2 _ hd
      obtain ⟨d, hpd⟩ := Option.isSome_iff_exists.mp (by simpa [createDateOk] using h1)
      exact ⟨.date d, by simp [hpd]⟩
  obtain ⟨stv, h1⟩ := hstep1
  obtain ⟨dtv, h2⟩ := hstep2
  refine ⟨{ name := setRaw movie.name u.name PyValue.str
            date := dtv
            score := setRaw movie.score u.score PyValue.num
            overview := setRaw movie.overview u.overview PyValue.str
            status := stv
            budget := setRaw movie.budget u.budget PyValue.num
            revenue := setRaw movie.revenue u.revenue PyValue.num
            country := setRaw movie.country u.country PyValue.str
            genres := setRaw movie.genres u.genres PyValue.strList
            actors := setRaw movie.actors u.actors PyValue.strList
            languages := setRaw movie.languages u.languages PyValue.strList }, ?_⟩
  simp only [applyUpdateFields, h1, h2]

theorem assignsRaw_setRaw {α : Type} (sent : Option (Option α)) (old : PyValue)
    (inj : α → PyValue) : assignsRaw sent old (setRaw old sent inj) inj :=
  ⟨fun h => by rw [h]; rfl, fun v hv => by rw [hv]; rfl⟩

/-- C4: for a validated update request the handler succeeds, assigns exactly
the fields present (status converted label-to-enum, date parsed, everything
else raw) and leaves every omitted field untouched. -/
theorem update_partial_semantics (movie : MovieObj) (u : MovieUpdateReq)
    (hval : ValidUpdateReq u) :
    ∃ m1, applyUpdateFields movie u = .ok m1
      ∧ update_movie_fields movie u = (m1, .ok "Movie updated successfully.")
      ∧ assignsRaw u.name movie.name m1.name PyValue.str
      ∧ assignsRaw u.score movie.score m1.score PyValue.num
      ∧ assignsRaw u.overview movie.overview m1.overview PyValue.str
      ∧ assignsRaw u.budget movie.budget m1.budget PyValue.num
      ∧ assignsRaw u.revenue movie.revenue m1.revenue PyValue.num
      ∧ assignsRaw u.country movie.country m1.country PyValue.str
      ∧ assignsRaw u.genres movie.genres m1.genres PyValue.strList
      ∧ assignsRaw u.actors movie.actors m1.actors PyValue.strList
      ∧ assignsRaw u.languages movie.languages m1.languages PyValue.strList
      ∧ (u.status = none → m1.status = movie.status)
      ∧ (∀ v st, u.status = some (some v) → statusOfLabel v = some st →
          m1.status = .status st)
      ∧ (u.date = none → m1.date = movie.date)
      ∧ (∀ v d, u.date = some (some v) → parseDate v = some d → m1.date = .date d) := by
  obtain ⟨m1, hok⟩ := applyUpdateFields_ok_of_valid movie u hval
  obtain ⟨s1, s2, s3, s4, s5, s6, s7, s8, s9, t1, -, t3, t4, -, t6⟩ :=
    applyUpdateFields_ok_shape hok
  refine ⟨m1, hok, by simp [update_movie_fields, hok], ?_, ?_, ?_, ?_, ?_, ?_, ?_, ?_, ?_,
    t1, t3, t4, t6⟩
  · rw [s1]; exact assignsRaw_setRaw _ _ _
  · rw [s2]; exact assignsRaw_setRaw _ _ _
  · rw [s3]; exact assignsRaw_setRaw _ _ _
  · rw [s4]; exact assignsRaw_setRaw _ _ _
  · rw [s5]; exact assignsRaw_setRaw _ _ _
  · rw [s6]; exact assignsRaw_setRaw _ _ _
  · rw [s7]; exact assignsRaw_setRaw _ _ _
  · rw [s8]; exact assignsRaw_setRaw _ _ _
  · rw [s9]; exact assignsRaw_setRaw _ _ _

theorem update_partial_semantics_witness :
    (update_movie_fields movieObj0 updScore).2 = .ok "Movie updated successfully."
      ∧ (update_movie_fields movieObj0 updScore).1.name = movieObj0.name
      ∧ (update_movie_fields movieObj0 updScore).1.score = .num 5 := by
  obtain ⟨m1, -, h2, hname, hscore, -⟩ :=
    update_partial_semantics movieObj0 updScore
      (by constructor <;> (intro v hv; simp [updScore] at hv))
  rw [h2]
  exact ⟨rfl, hname.1 rfl, hscore.2 5 rfl⟩

/-- C10: a field other than `status` and `date` sent as an explicit null is
assigned as null, not skipped: the exclude-unset dump retains explicit nulls
and only `status` / `date` carry an is-not-None guard. -/
theorem update_null_raw (movie : MovieObj) (u : MovieUpdateReq) (m1 : MovieObj)
    (h : applyUpdateFields movie u = .ok m1) :
    (u.name = some none → m1.name = .null)
    ∧ (u.score = some none → m1.score = .null)
    ∧ (u.overview = some none → m1.overview = .null)
    ∧ (u.budget = some none → m1.budget = .null)
    ∧ (u.revenue = some none → m1.revenue = .null)
    ∧ (u.country = some none → m1.country = .null)
    ∧ (u.genres = some none → m1.genres = .null)
    ∧ (u.actors = some none → m1.actors = .null)
    ∧ (u.languages = some none → m1.languages = .null) := by
  obtain ⟨s1, s2, s3, s4, s5, s6, s7, s8, s9, -⟩ := applyUpdateFields_ok_shape h
  exact ⟨fun hv => by rw [s1, hv]; rfl, fun hv => by rw [s2, hv]; rfl,
    fun hv => by rw [s3, hv]; rfl, fun hv => by rw [s4, hv]; rfl, fun hv => by rw [s5, hv]; rfl,
    fun hv => by rw [s6, hv]; rfl, fun hv => by rw [s7, hv]; rfl, fun hv => by rw [s8, hv]; rfl,
    fun hv => by rw [s9, hv]; rfl⟩

theorem update_null_raw_witness :
    ({ movieObj0 with score := PyValue.null } : MovieObj).score = PyValue.null :=
  (update_null_raw movieObj0 updNullScore { movieObj0 with score := PyValue.null } rfl).2.1
    rfl

theorem foldl_digits_lt (cs : List Char) (hdig : ∀ c ∈ cs, c.isDigit = true) :
    ∀ a : Nat, cs.foldl (fun a c => 10 * a + (c.toNat - 48)) a
      < (a + 1) * 10 ^ cs.length := by
  induction cs with
  | nil => intro a; simp
  | cons c cs ih =>
    intro a
    have hc : c.toNat - 48 ≤ 9 := by
      have hd := hdig c (List.mem_cons_self c cs)
      have hb : 48 ≤ c.toNat ∧ c.toNat ≤ 57 := by
        simp [Char.isDigit] at hd
        exact ⟨hd.1, hd.2⟩
      omega
    have h1 := ih (fun x hx => hdig x (List.mem_cons_of_mem c hx)) (10 * a + (c.toNat - 48))
    have h2 : (10 * a + (c.toNat - 48) + 1) * 10 ^ cs.length
        ≤ (a + 1) * 10 ^ (c :: cs).length := by
      simp only [List.length_cons, pow_succ]
      calc (10 * a + (c.toNat - 48) + 1) * 10 ^ cs.length
          ≤ ((a + 1) * 10) * 10 ^ cs.length := by
            apply Nat.mul_le_mul_right
            omega
        _ = (a + 1) * (10 ^ cs.length * 10) := by ring
    calc (c :: cs).foldl (fun a c => 10 * a + (c.toNat - 48)) a
        = cs.foldl (fun a c => 10 * a + (c.toNat - 48)) (10 * a + (c.toNat - 48)) := rfl
      _ < (10 * a + (c.toNat - 48) + 1) * 10 ^ cs.length := h1
      _ ≤ (a + 1) * 10 ^ (c :: cs).length := h2

theorem digitsVal_lt (cs : List Char) (hdig : ∀ c ∈ cs, c.isDigit = true) :
    digitsVal cs < 10 ^ cs.length := by
  simpa [digitsVal] using foldl_digits_lt cs hdig 0

/-- C8: create-request validation accepts `status` exactly for the five
case-sensitive labels; it accepts `date` exactly when the string matches
`YYYY-MM-DD` and its digits form a real calendar date; the update validators
accept an absent value without checking it. -/
theorem schema_validators_correct :
    (∀ v : String, createStatusOk v = true ↔
      (v = "Released" ∨ v = "Post Production" ∨ v = "In Production"
        ∨ v = "Planned" ∨ v = "Canceled"))
    ∧ (∀ v : String, createDateAccepted v = true ↔
      (matchesDatePattern v = true ∧ ∃ y m d, dateComponents v = some (y, m, d)
        ∧ IsRealCalendarDate y m d))
    ∧ updateStatusOk none = true ∧ updateDateOk none = true := by
  refine ⟨?_, ?_, rfl, rfl⟩
  · intro v
    simp [createStatusOk, validStatuses]
  · intro v
    rcases hsp : List.splitOn '-' v.toList with _ | ⟨ys, _ | ⟨ms, _ | ⟨ds, _ | ⟨e4, tl⟩⟩⟩⟩
    · simp only [createDateAccepted, createDateOk, matchesDatePattern, parseDate, hsp]
      simp
    · simp only [createDateAccepted, createDateOk, matchesDatePattern, parseDate, hsp]
      simp
    · simp only [createDateAccepted, createDateOk, matchesDatePattern, parseDate, hsp]
      simp
    · constructor
      · intro h
        obtain ⟨hpat, hok⟩ : matchesDatePattern v = true ∧ createDateOk v = true := by
          simpa [createDateAccepted, Bool.and_eq_true] using h
        have hpat2 := hpat
        simp only [matchesDatePattern, hsp, Bool.and_eq_true, beq_iff_eq,
          List.all_eq_true] at hpat2
        obtain ⟨⟨⟨⟨⟨hylen, hydig⟩, hmlen⟩, hmdig⟩, hdlen⟩, hddig⟩ := hpat2
        have hcond : ys.length = 4 ∧ ys.all Char.isDigit
            ∧ 1 ≤ ms.length ∧ ms.length ≤ 2 ∧ ms.all Char.isDigit
            ∧ 1 ≤ ds.length ∧ ds.length ≤ 2 ∧ ds.all Char.isDigit := by
          refine ⟨hylen, List.all_eq_true.mpr hydig, by omega, by omega,
            List.all_eq_true.mpr hmdig, by omega, by omega, List.all_eq_true.mpr hddig⟩
        simp only [createDateOk, parseDate, hsp] at hok
        rw [if_pos hcond] at hok
        by_cases hc2 : 1 ≤ digitsVal ys ∧ 1 ≤ digitsVal ms ∧ digitsVal ms ≤ 12
            ∧ 1 ≤ digitsVal ds ∧ digitsVal ds ≤ daysInMonth (digitsVal ys) (digitsVal ms)
        · refine ⟨hpat, digitsVal ys, digitsVal ms, digitsVal ds, ?_, ?_⟩
          · simp only [dateComponents, hsp]
            rw [if_pos]
            refine ⟨?_, List.all_eq_true.mpr hydig, ?_, List.all_eq_true.mpr hmdig,
              ?_, List.all_eq_true.mpr hddig⟩
            · exact List.ne_nil_of_length_pos (by omega)
            · exact List.ne_nil_of_length_pos (by omega)
            · exact List.ne_nil_of_length_pos (by omega)
          · have hbound := digitsVal_lt ys hydig
            rw [hylen] at hbound
            exact ⟨hc2.1, by omega, hc2.2.1, hc2.2.2.1, hc2.2.2.2.1, hc2.2.2.2.2⟩
        · rw [if_neg hc2] at hok
          simp at hok
      · rintro ⟨hpat, y, m, d, hcomp, hreal⟩
        have hpat2 := hpat
        simp only [matchesDatePattern, hsp, Bool.and_eq_true, beq_iff_eq,
          List.all_eq_true] at hpat2
        obtain ⟨⟨⟨⟨⟨hylen, hydig⟩, hmlen⟩, hmdig⟩, hdlen⟩, hddig⟩ := hpat2
        simp only [dateComponents, hsp] at hcomp
        rw [if_pos] at hcomp
        · simp only [Option.some.injEq, Prod.mk.injEq] at hcomp
          obtain ⟨hy, hm, hd⟩ := hcomp
          have hdok : createDateOk v = true := by
            simp only [createDateOk, parseDate, hsp]
            rw [if_pos]
            · rw [if_pos]
              · rfl
              · obtain ⟨r1, r2, r3, r4, r5, r6⟩ := hreal
                rw [← hy] at r1
                rw [← hm] at r3 r4
                rw [← hd] at r5
                rw [← hy, ← hm, ← hd] at r6
                exact ⟨r1, r3, r4, r5, r6⟩
            · refine ⟨hylen, List.all_eq_true.mpr hydig, by omega, by omega,
                List.all_eq_true.mpr hmdig, by omega, by omega, List.all_eq_true.mpr hddig⟩
          simp [createDateAccepted, hpat, hdok]
        · refine ⟨?_, List.all_eq_true.mpr hydig, ?_, List.all_eq_true.mpr hmdig,
            ?_, List.all_eq_true.mpr hddig⟩
          · exact List.ne_nil_of_length_pos (by omega)
          · exact List.ne_nil_of_length_pos (by omega)
          · exact List.ne_nil_of_length_pos (by omega)
    · simp only [createDateAccepted, createDateOk, matchesDatePattern, parseDate, hsp]
      simp

theorem create_conflict_iff_witness :
    isConflict (create_movie storeDune reqDune).2 :=
  (create_conflict_iff storeDune reqDune (by decide) ⟨2021, 10, 22⟩ (by decide)).mpr
    (by decide)

theorem create_success_rows_witness :
    refExtension emptyStore.genres storeDune.genres ["Sci-Fi"] :=
  (create_success_rows emptyStore reqDune storeDune detDune rfl).2.2.1

theorem create_error_handling_witness :
    create_movie emptyStore reqBadDate
      = (emptyStore, .error (.http 400 "Invalid input data.")) :=
  (create_error_handling emptyStore reqBadDate).1 rfl

